import Mathlib

/-!
Verification development for the OpenSea MCP client and ENS resolution core
of the ethnyc repository.

The embedding translates the TypeScript source into executable Lean
definitions.  Network requests, JSON.parse and the viem name-service calls
are external effects; they are abstracted as explicit oracle parameters
(a fetch outcome value, a parse function, a per-endpoint lookup outcome),
while all control flow, state updates, caching and response decoding are
translated line by line from the source.  Observable I/O is instrumented
with explicit counters (networkCalls) so that claims about "no network
call happens" are statable.
-/

namespace EthNyc

/-! ### JavaScript value model

A minimal JSON value type, with JavaScript truthiness and property access,
used to model the bodies that JSON.parse and response.json() produce. -/

inductive Json where
  | jnull
  | jbool (b : Bool)
  | jnum (n : Int)
  | jstr (s : String)
  | jarr (elems : List Json)
  | jobj (fields : List (String × Json))

/-- JavaScript truthiness: null, false, 0 and the empty string are falsy;
arrays and objects are always truthy. -/
def Json.truthy : Json → Bool
  | .jnull => false
  | .jbool b => b
  | .jnum n => n != 0
  | .jstr s => s != ""
  | .jarr _ => true
  | .jobj _ => true

/-- JavaScript property access j.k, returning none for a missing field or a
non-object receiver (both read as undefined in the source).  Field lists
coming out of JSON.parse carry no duplicate keys. -/
def Json.get : Json → String → Option Json
  | .jobj fields, k => fields.lookup k
  | _, _ => none

/-- Truthiness of the field access j.k, as used in checks such as
if (result.error). -/
def jsFieldTruthy (j : Json) (k : String) : Bool :=
  match j.get k with
  | some v => v.truthy
  | none => false

/-- Strict equality data.id === expectedId between a possibly absent field
and a number: true only when the field is a number with the same value. -/
def jsonIdEq (j : Option Json) (n : Int) : Bool :=
  match j with
  | some (.jnum m) => m == n
  | _ => false

/-- Template interpolation of the error.message field: a string value is
used as is; an absent field prints as undefined.  The inputs exercised by
the claims always carry string messages. -/
def errMessage (e : Option Json) : String :=
  match e with
  | some j =>
    match j.get "message" with
    | some (.jstr s) => s
    | _ => "undefined"
  | none => "undefined"

/-- ASCII lowercasing, modelling the JavaScript toLowerCase() calls, which
in this code are only applied to hexadecimal addresses and URLs. -/
def lowerStr (s : String) : String := String.mk (s.data.map Char.toLower)

/-- Character level prefix test used by strContains. -/
def isPrefixChars : List Char → List Char → Bool
  | [], _ => true
  | _ :: _, [] => false
  | a :: as, b :: bs => a == b && isPrefixChars as bs

/-- Substring occurrence test on character lists. -/
def containsChars (needle : List Char) : List Char → Bool
  | [] => isPrefixChars needle []
  | c :: cs => isPrefixChars needle (c :: cs) || containsChars needle cs

/-- Substring test hay.includes(needle), as used for the content-type
check in the source. -/
def strContains (hay needle : String) : Bool := containsChars needle.data hay.data

/-- Splitting a character list at every newline, keeping empty segments,
the semantics of text.split of a newline in JavaScript. -/
def splitLinesChars : List Char → List (List Char)
  | [] => [[]]
  | c :: cs =>
    let rest := splitLinesChars cs
    if c == '\n' then [] :: rest
    else
      match rest with
      | line :: more => (c :: line) :: more
      | [] => [[c]]

/-- String form of splitLinesChars. -/
def splitLines (s : String) : List String := (splitLinesChars s.data).map String.mk

/-! ### Session protocol client (src/unnamed/part_000, class OpenSeaMCPClient) -/

/-- Client state: the fields of OpenSeaMCPClient. -/
structure MCPState where
  mcpUrl : String
  mcpToken : String
  requestId : Int
  sessionId : Option String
  initialized : Bool
  configValid : Bool
deriving DecidableEq

/-- The OpenSeaMCPClient constructor, parameterized by the value of the
OPENSEA_MCP_TOKEN environment variable (the empty string models an unset
variable, matching the or-default in the source). -/
def mkClient (token : String) : MCPState :=
  if token != "" then
    { mcpUrl := "https://mcp.opensea.io/" ++ token ++ "/mcp"
      mcpToken := token
      requestId := 1
      sessionId := none
      initialized := false
      configValid := true }
  else
    { mcpUrl := ""
      mcpToken := token
      requestId := 1
      sessionId := none
      initialized := false
      configValid := false }

/-- An HTTP response as observed by the client: status line, the two headers
it reads, and the body in both of the forms the code may request.  bodyJson
is the outcome of response.json(), with none modelling a parse failure
being thrown; bodyText is the raw text for the event-stream path. -/
structure HttpResponse where
  ok : Bool
  status : Nat
  sessionHeader : Option String
  contentType : Option String
  bodyText : String
  bodyJson : Option Json

/-- Outcome of one fetch call: either the transport throws, or a response
arrives. -/
inductive FetchOutcome where
  | thrown (msg : String)
  | success (r : HttpResponse)

/-- Check contentType && contentType.includes of text/event-stream. -/
def contentTypeIsEventStream (ct : Option String) : Bool :=
  match ct with
  | some s => strContains s "text/event-stream"
  | none => false

/-- Strip the fixed marker from a stream line: returns the payload of a
line that starts with the six characters of the data marker, none for any
other line.  Corresponds to line.startsWith and line.substring(6). -/
def dataLinePayload : List Char → Option (List Char)
  | 'd' :: 'a' :: 't' :: 'a' :: ':' :: ' ' :: rest => some rest
  | _ => none

/-- Result of one connect() call: the updated client state, the exception
surfaced to the caller when one is thrown, and the number of network
requests issued. -/
structure ConnectResult where
  state : MCPState
  error : Option String
  networkCalls : Nat
deriving DecidableEq

/-- The line loop of the event-stream branch of connect() (source lines
112-129).  Returns whether a line with a truthy result and the expected id
was found, triggering the early return.  When a parsed line carries a
truthy error field the source throws, but that throw happens inside the
try whose catch clause skips malformed JSON lines, so it is swallowed
there and the loop simply continues; the scan therefore never raises. -/
def connectStreamScan (parse : String → Option Json) (expectedId : Int) :
    List String → Bool
  | [] => false
  | line :: rest =>
    match dataLinePayload line.data with
    | some payload =>
      match parse (String.mk payload) with
      | some j =>
        if jsFieldTruthy j "result" && jsonIdEq (j.get "id") expectedId then true
        else connectStreamScan parse expectedId rest
      | none => connectStreamScan parse expectedId rest
    | none => connectStreamScan parse expectedId rest

/-- connect() from the source (lines 60-153).  parse models JSON.parse on
stream lines; net models the fetch of the initialize request.  On any
failure the outer catch clears the session and connected flags and
re-throws with added context. -/
def connect (parse : String → Option Json) (st : MCPState) (net : FetchOutcome) :
    ConnectResult :=
  if st.initialized then
    { state := st, error := none, networkCalls := 0 }
  else if !st.configValid then
    { state := st, error := some "OpenSea MCP token not configured", networkCalls := 0 }
  else
    let sent : MCPState := { st with requestId := st.requestId + 1 }
    match net with
    | .thrown msg =>
      { state := { sent with sessionId := none, initialized := false }
        error := some ("OpenSea MCP connection failed: " ++ msg)
        networkCalls := 1 }
    | .success r =>
      if !r.ok then
        { state := { sent with sessionId := none, initialized := false }
          error := some ("OpenSea MCP connection failed: HTTP " ++ toString r.status
                          ++ ": " ++ r.bodyText)
          networkCalls := 1 }
      else
        let withSession : MCPState :=
          match r.sessionHeader with
          | some sid => { sent with sessionId := some sid }
          | none => sent
        if contentTypeIsEventStream r.contentType then
          let _matched := connectStreamScan parse (sent.requestId - 1) (splitLines r.bodyText)
          { state := { withSession with initialized := true }
            error := none
            networkCalls := 1 }
        else
          match r.bodyJson with
          | none =>
            { state := { sent with sessionId := none, initialized := false }
              error := some "OpenSea MCP connection failed: invalid JSON body"
              networkCalls := 1 }
          | some j =>
            if jsFieldTruthy j "error" then
              { state := { sent with sessionId := none, initialized := false }
                error := some ("OpenSea MCP connection failed: MCP Initialize Error: "
                                ++ errMessage (j.get "error"))
                networkCalls := 1 }
            else
              { state := { withSession with initialized := true }
                error := none
                networkCalls := 1 }

/-- The line loop of parseSSEResponse (source lines 44-56): the first line
whose payload parses to an envelope with the expected id is returned;
malformed lines and lines with other ids are skipped. -/
def parseSSELines (parse : String → Option Json) (expectedId : Int) :
    List String → Option Json
  | [] => none
  | line :: rest =>
    match dataLinePayload line.data with
    | some payload =>
      match parse (String.mk payload) with
      | some j =>
        if jsonIdEq (j.get "id") expectedId then some j
        else parseSSELines parse expectedId rest
      | none => parseSSELines parse expectedId rest
    | none => parseSSELines parse expectedId rest

/-- parseSSEResponse from the source (lines 43-58). -/
def parseSSEResponse (parse : String → Option Json) (text : String) (expectedId : Int) :
    Option Json :=
  parseSSELines parse expectedId (splitLines text)

/-- One entry of the static fallback catalog. -/
def knownTool (name descr : String) : Json :=
  .jobj [("name", .jstr name), ("description", .jstr descr)]

/-- getKnownTools from the source (lines 200-214): the static known
operations catalog. -/
def getKnownTools : List Json :=
  [ knownTool "search" "Search OpenSea marketplace"
  , knownTool "fetch" "Fetch entity details"
  , knownTool "search_collections" "Search NFT collections"
  , knownTool "get_collection" "Get collection details"
  , knownTool "search_items" "Search NFT items"
  , knownTool "get_item" "Get item details"
  , knownTool "search_tokens" "Search tokens"
  , knownTool "get_token" "Get token details"
  , knownTool "get_token_swap_quote" "Get swap quote"
  , knownTool "get_token_balances" "Get token balances" ]

/-- Result of one listTools() call. -/
structure ListToolsResult where
  state : MCPState
  result : Except String Json
  networkCalls : Nat

/-- listTools() from the source (lines 161-198).  connectNet models the
fetch of the implicit connect() performed when the client is not yet
initialized; listNet models the fetch of the tools list request.  Note
that the connect() call sits before the try block, so a connect failure
is not absorbed by the catch that returns the fallback catalog. -/
def listTools (parse : String → Option Json) (st : MCPState)
    (connectNet listNet : FetchOutcome) : ListToolsResult :=
  if !st.configValid then
    { state := st, result := .ok (.jarr getKnownTools), networkCalls := 0 }
  else
    let c :=
      if !st.initialized then connect parse st connectNet
      else { state := st, error := none, networkCalls := 0 }
    match c.error with
    | some e => { state := c.state, result := .error e, networkCalls := c.networkCalls }
    | none =>
      let st1 := c.state
      let sent : MCPState := { st1 with requestId := st1.requestId + 1 }
      match listNet with
      | .thrown _ =>
        { state := sent, result := .ok (.jarr getKnownTools)
          networkCalls := c.networkCalls + 1 }
      | .success r =>
        if !r.ok then
          { state := sent, result := .ok (.jarr getKnownTools)
            networkCalls := c.networkCalls + 1 }
        else
          match r.bodyJson with
          | none =>
            { state := sent, result := .ok (.jarr getKnownTools)
              networkCalls := c.networkCalls + 1 }
          | some j =>
            if jsFieldTruthy j "error" then
              { state := sent, result := .ok (.jarr getKnownTools)
                networkCalls := c.networkCalls + 1 }
            else
              let tools : Option Json :=
                match j.get "result" with
                | some res => res.get "tools"
                | none => none
              match tools with
              | some t =>
                if t.truthy then
                  { state := sent, result := .ok t, networkCalls := c.networkCalls + 1 }
                else
                  { state := sent, result := .ok (.jarr getKnownTools)
                    networkCalls := c.networkCalls + 1 }
              | none =>
                { state := sent, result := .ok (.jarr getKnownTools)
                  networkCalls := c.networkCalls + 1 }

/-- Result of one callTool() call.  assignedId records the JSON-RPC id the
client assigned to the tools call request, when the request was sent. -/
structure ToolCallResult where
  state : MCPState
  result : Except String (Option Json)
  networkCalls : Nat
  assignedId : Option Int

/-- The request and response decoding part of callTool() (source lines
226-271), starting after the implicit connect: st1 is the client state
once connected, base the number of network calls already spent by the
connect.  The id assigned to the request is the current requestId, and the
counter is incremented.  Unlike the handshake loop, the error check of the
event-stream branch here happens outside the parse try/catch, so a
matched envelope with a truthy error field does raise. -/
def callToolSend (parse : String → Option Json) (st1 : MCPState)
    (callNet : FetchOutcome) (base : Nat) : ToolCallResult :=
  let rid := st1.requestId
  let sent : MCPState := { st1 with requestId := rid + 1 }
  match callNet with
  | .thrown msg =>
    { state := sent, result := .error msg
      networkCalls := base + 1, assignedId := some rid }
  | .success r =>
    if !r.ok then
      { state := sent
        result := .error ("HTTP " ++ toString r.status ++ ": " ++ r.bodyText)
        networkCalls := base + 1, assignedId := some rid }
    else if contentTypeIsEventStream r.contentType then
      match parseSSEResponse parse r.bodyText rid with
      | some d =>
        if jsFieldTruthy d "error" then
          { state := sent
            result := .error ("MCP Tool Error: " ++ errMessage (d.get "error"))
            networkCalls := base + 1, assignedId := some rid }
        else
          { state := sent, result := .ok (d.get "result")
            networkCalls := base + 1, assignedId := some rid }
      | none =>
        { state := sent, result := .error "No valid response found in SSE stream"
          networkCalls := base + 1, assignedId := some rid }
    else
      match r.bodyJson with
      | none =>
        { state := sent, result := .error "invalid JSON body"
          networkCalls := base + 1, assignedId := some rid }
      | some j =>
        if jsFieldTruthy j "error" then
          { state := sent
            result := .error ("MCP Tool Error: " ++ errMessage (j.get "error"))
            networkCalls := base + 1, assignedId := some rid }
        else
          { state := sent, result := .ok (j.get "result")
            networkCalls := base + 1, assignedId := some rid }

/-- callTool() from the source (lines 216-276).  The tool name and
arguments only enter the request body, which the network oracle abstracts,
so they are not parameters of the model.  A missing configuration fails
fast; an uninitialized client connects first, and a connect error
propagates; otherwise the request is sent and decoded by callToolSend. -/
def callTool (parse : String → Option Json) (st : MCPState)
    (connectNet callNet : FetchOutcome) : ToolCallResult :=
  if !st.configValid then
    { state := st, result := .error "OpenSea MCP not configured"
      networkCalls := 0, assignedId := none }
  else
    let c :=
      if !st.initialized then connect parse st connectNet
      else { state := st, error := none, networkCalls := 0 }
    match c.error with
    | some e =>
      { state := c.state, result := .error e
        networkCalls := c.networkCalls, assignedId := none }
    | none => callToolSend parse c.state callNet c.networkCalls

/-! ### Multi-endpoint name resolver and cache
(src/lib/ai/tools/opensea-mcp.ts, lines 239-626) -/

/-- Lookup in a JavaScript Map modelled as an association list with unique
keys: Map.get, returning undefined (none) when the key is absent. -/
def mapGet {α : Type} : List (String × α) → String → Option α
  | [], _ => none
  | p :: rest, k => if p.1 = k then some p.2 else mapGet rest k

/-- Map.has. -/
def mapContains {α : Type} (m : List (String × α)) (k : String) : Bool :=
  (mapGet m k).isSome

/-- Map.set: overwrite the value at an existing key in place, otherwise
append a new entry. -/
def mapSet {α : Type} (m : List (String × α)) (k : String) (v : α) :
    List (String × α) :=
  if mapContains m k then m.map (fun p => if p.1 = k then (k, v) else p)
  else m ++ [(k, v)]

/-- The keys of a map. -/
def keysOf {α : Type} (m : List (String × α)) : List String := m.map Prod.fst

/-- Hexadecimal digit, as accepted by the character class of
ETH_ADDRESS_REGEX (src/components/ens-enhanced-text.tsx line 8). -/
def hexDigit (c : Char) : Bool :=
  ('0' ≤ c && c ≤ '9') || ('a' ≤ c && c ≤ 'f') || ('A' ≤ c && c ≤ 'F')

/-- The fixed address shape of ETH_ADDRESS_REGEX, on characters: the two
leading characters 0 and x followed by exactly forty hex digits. -/
def ethAddressShapeChars : List Char → Bool
  | '0' :: 'x' :: rest => rest.length == 40 && rest.all hexDigit
  | _ => false

/-- The fixed address shape on strings. -/
def ethAddressShape (s : String) : Bool := ethAddressShapeChars s.data

/-- The isAddress validator of the external viem library, modelled from its
documented behavior: a string is an address only when it matches the
0x-plus-40-hex-digits shape, and a mixed-case candidate must additionally
pass the EIP-55 checksum, abstracted here as the checksumOk oracle (the
keccak hash is outside this development). -/
def isAddress (checksumOk : String → Bool) (s : String) : Bool :=
  ethAddressShape s && (lowerStr s == s || checksumOk s)

/-- Outcome of a single getEnsName call against one RPC endpoint: the
transport throws, a name string is returned, or null is returned. -/
inductive LookupOutcome where
  | failure
  | found (name : String)
  | empty

/-- Number of mainnet RPC endpoints tried by resolveAddressToENS: the
optional ETHEREUM_RPC_URL override plus the three fixed public endpoints
(lines 291-296, after filter of unset values). -/
def rpcEndpointCount (hasEnvRpc : Bool) : Nat := if hasEnvRpc then 4 else 3

/-- Number of additional chains tried after mainnet: CHAINS.slice(1) of the
six configured chains (lines 243-250 and 320). -/
def fallbackChainCount : Nat := 5

/-- The endpoint loop of resolveAddressToENS (lines 298-342): attempts are
consumed in order; a thrown transport error or a null result moves on to
the next endpoint (both loops catch and continue); a truthy (non-empty)
name stops the loop.  Returns the found name, if any, together with the
number of lookups issued. -/
def tryEndpoints (oracle : Nat → LookupOutcome) : Nat → Nat → Option String × Nat
  | _, 0 => (none, 0)
  | start, n + 1 =>
    match oracle start with
    | .found s =>
      if s ≠ "" then (some s, 1)
      else
        let r := tryEndpoints oracle (start + 1) n
        (r.1, r.2 + 1)
    | _ =>
      let r := tryEndpoints oracle (start + 1) n
      (r.1, r.2 + 1)

/-- Result of one resolveAddressToENS call: the returned value, the name
cache after the call, and the number of network lookups issued. -/
structure ResolveOutcome where
  value : Option String
  cache : List (String × Option String)
  networkCalls : Nat

/-- resolveAddressToENS from the source (lines 277-352).  checksumOk
abstracts the EIP-55 check inside the external isAddress; hasEnvRpc is
whether ETHEREUM_RPC_URL is set; oracle gives the outcome of the k-th
endpoint lookup.  Every throw inside the loops is caught by the
per-endpoint catch clauses, and the outer catch turns any remaining error
into a cached null result, so the function always returns. -/
def resolveAddressToENS (checksumOk : String → Bool) (hasEnvRpc : Bool)
    (oracle : Nat → LookupOutcome) (cache : List (String × Option String))
    (address : String) : ResolveOutcome :=
  if !isAddress checksumOk address then
    { value := none, cache := cache, networkCalls := 0 }
  else
    let normalized := lowerStr address
    if mapContains cache normalized then
      let stored := (mapGet cache normalized).getD none
      { value := match stored with
                 | some s => if s = "" then none else some s
                 | none => none
        cache := cache
        networkCalls := 0 }
    else
      let total := rpcEndpointCount hasEnvRpc + fallbackChainCount
      let r := tryEndpoints oracle 0 total
      match r.1 with
      | some s =>
        { value := some s, cache := mapSet cache normalized (some s), networkCalls := r.2 }
      | none =>
        { value := none, cache := mapSet cache normalized none, networkCalls := r.2 }

/-- The ENSProfile record of the source (lines 253-266). -/
structure ENSProfile where
  name : Option String
  avatar : Option String
  description : Option String
  email : Option String
  url : Option String
  twitter : Option String
  github : Option String
  discord : Option String
  telegram : Option String
  contentHash : Option String
  loading : Bool
  error : Option String
deriving DecidableEq

/-- The two module level caches (lines 269-270). -/
structure ENSCacheState where
  names : List (String × Option String)
  profiles : List (String × ENSProfile)

/-- clearENSCache from the source (lines 604-607): both maps are cleared
unconditionally. -/
def clearENSCache (_ : ENSCacheState) : ENSCacheState :=
  { names := [], profiles := [] }

/-- Outcome of one settled promise from Promise.allSettled: fulfilled with
the resolved value (a string or null for the text record lookups), or
rejected. -/
inductive Settled where
  | fulfilled (value : Option String)
  | rejected
deriving DecidableEq

/-- Reading a settled result: results[i].status === fulfilled gives the
value, a rejected entry reads as null. -/
def settledValue : Settled → Option String
  | .fulfilled v => v
  | .rejected => none

/-- The JavaScript or-else a || b on string-or-null values: a non-empty
string on the left wins, otherwise the right value is used (null and the
empty string are falsy). -/
def jsOrStr (a b : Option String) : Option String :=
  match a with
  | some s => if s = "" then b else some s
  | none => b

/-- The per-field values extracted from one endpoint attempt of
resolveENSProfile. -/
structure ProfileFields where
  avatar : Option String
  description : Option String
  email : Option String
  url : Option String
  twitter : Option String
  github : Option String
  discord : Option String
  telegram : Option String
  contentHash : Option String
deriving DecidableEq

/-- The extraction step of resolveENSProfile (lines 453-480): the eleven
lookups of Promise.allSettled are indexed 0..10 in the order of the source
(avatar, description, email, url, com.twitter, twitter, com.github,
github, com.discord, org.telegram, contenthash).  Each field reads only
its own settled entries; twitter and github coalesce the two key variants
with the primary alias first. -/
def profileFieldsOfEndpoint (r : Fin 11 → Settled) : ProfileFields :=
  { avatar := settledValue (r 0)
    description := settledValue (r 1)
    email := settledValue (r 2)
    url := settledValue (r 3)
    twitter := jsOrStr (settledValue (r 4)) (settledValue (r 5))
    github := jsOrStr (settledValue (r 6)) (settledValue (r 7))
    discord := settledValue (r 8)
    telegram := settledValue (r 9)
    contentHash := settledValue (r 10) }

/-- The terminal failed-state record written by resolveMultipleProfiles for
an address whose resolution promise rejected (lines 580-594). -/
def batchFailedProfile : ENSProfile :=
  { name := none, avatar := none, description := none, email := none
    url := none, twitter := none, github := none, discord := none
    telegram := none, contentHash := none
    loading := false, error := some "Failed to resolve profile" }

/-- Shared shape of the two batch resolvers (lines 540-559 and 566-599):
Promise.allSettled preserves input order, and the forEach over its results
writes one map entry per input address, keyed by the lowercased address,
overwriting on repeated keys. -/
def settleBatch {β : Type} (record : String → β) (addresses : List String) :
    List (String × β) :=
  addresses.foldl (fun results a => mapSet results (lowerStr a) (record a)) []

/-- The record the forEach of resolveMultipleProfiles writes for one
address, as a function of the settlement of its resolution promise (lines
576-596): the resolved profile when fulfilled, the terminal failed-state
record when rejected. -/
def profileRecordOf (outcome : String → Except String ENSProfile) (a : String) :
    ENSProfile :=
  match outcome a with
  | .ok p => p
  | .error _ => batchFailedProfile

/-- The record the forEach of resolveMultipleAddresses writes for one
address (lines 550-556): the resolved name when fulfilled, null when
rejected. -/
def nameRecordOf (outcome : String → Except String (Option String)) (a : String) :
    Option String :=
  match outcome a with
  | .ok n => n
  | .error _ => none

/-- resolveMultipleProfiles from the source (lines 566-599).  outcome gives
the settlement of the per-address resolveENSProfile promise: fulfilled
with a profile, or rejected, in which case the terminal failed-state
record is written for that address only. -/
def resolveMultipleProfiles (outcome : String → Except String ENSProfile)
    (addresses : List String) : List (String × ENSProfile) :=
  settleBatch (profileRecordOf outcome) addresses

/-- resolveMultipleAddresses from the source (lines 540-559): same
structure, with a null name written for a rejected promise. -/
def resolveMultipleAddresses (outcome : String → Except String (Option String))
    (addresses : List String) : List (String × Option String) :=
  settleBatch (nameRecordOf outcome) addresses

/-! ### Payload address extractor
(src/components/ens-enhanced-text.tsx, lines 8 and 117-121) -/

/-- Whether the regex matches at the head of the list: the characters 0 and
x followed by at least forty hex digits ({40} consumes exactly forty). -/
def addrAt (l : List Char) : Bool :=
  match l with
  | '0' :: 'x' :: rest => 40 ≤ rest.length && (rest.take 40).all hexDigit
  | _ => false

/-- The global regex scan children.match(ETH_ADDRESS_REGEX): left to right,
at each position the pattern is tried; on a match the forty-two matched
characters are collected and the scan resumes after them, otherwise the
scan advances one character.  The fuel argument, initialized to the length
of the input, makes the recursion structural; every step consumes at least
one character, so fuel never runs out. -/
def scanAddressesFuel : Nat → List Char → List (List Char)
  | 0, _ => []
  | _ + 1, [] => []
  | fuel + 1, c :: cs =>
    if addrAt (c :: cs) then
      ('0' :: 'x' :: (cs.drop 1).take 40) :: scanAddressesFuel fuel ((cs.drop 1).drop 40)
    else scanAddressesFuel fuel cs

/-- All regex matches in a character list. -/
def scanAddresses (l : List Char) : List (List Char) :=
  scanAddressesFuel l.length l

/-- First-occurrence deduplication, the semantics of Array.from over a Set
built from the match array. -/
def insertUnique (acc : List String) (s : String) : List String :=
  if s ∈ acc then acc else acc ++ [s]

/-- Deduplicate keeping first occurrences. -/
def uniqueList (l : List String) : List String := l.foldl insertUnique []

/-- The address extraction of ENSEnhancedText (lines 117-121):
children.match(ETH_ADDRESS_REGEX) deduplicated through a Set. -/
def extractAddresses (text : String) : List String :=
  uniqueList ((scanAddresses text.data).map String.mk)

/-! ### Specification-side helper definitions -/

/-- The last element of the list whose lowercased form is the given key.
Because the batch resolvers write map entries in input order, overwriting
on repeated keys, this element determines the map entry at the key. -/
def lastKeyMatch : List String → String → Option String
  | [], _ => none
  | a :: rest, k =>
    match lastKeyMatch rest k with
    | some b => some b
    | none => if lowerStr a = k then some a else none

/-! ### Concrete inputs used by the counterexamples and witnesses -/

/-- A syntactically valid, all-lowercase sample address. -/
def sampleAddress : String := "0xabcdef0123456789abcdef0123456789abcdef01"

/-- The same digits in a different casing. -/
def sampleAddressUpper : String := "0xABCDEF0123456789abcdef0123456789abcdef01"

/-- JSON.parse oracle for a handshake stream whose single data line carries
an explicit error object with the message bad creds. -/
def streamErrorParse : String → Option Json := fun s =>
  if s = "errline" then
    some (.jobj [("id", .jnum 1), ("error", .jobj [("message", .jstr "bad creds")])])
  else none

/-- Event-stream handshake response whose body is the single line
data: errline, which streamErrorParse decodes to an envelope with id 1 and
an explicit error object. -/
def streamErrorResponse : HttpResponse :=
  { ok := true, status := 200, sessionHeader := some "sess"
    contentType := some "text/event-stream"
    bodyText := "data: errline", bodyJson := none }

/-- A client state equal to the one reached after a fresh construction with
a token followed by one successful handshake. -/
def connectedClient : MCPState :=
  { mkClient "token" with initialized := true, requestId := 2 }

/-- Single-JSON tool call response whose envelope carries id 999, different
from any id the client assigns. -/
def jsonMismatchResponse : HttpResponse :=
  { ok := true, status := 200, sessionHeader := none
    contentType := some "application/json"
    bodyText := ""
    bodyJson := some (.jobj [("id", .jnum 999), ("result", .jnum 42)]) }

/-- JSON.parse oracle for a two-line tool call stream: lineA decodes to an
envelope with id 7, lineB to an envelope with id 2. -/
def sseParse : String → Option Json := fun s =>
  if s = "lineA" then some (.jobj [("id", .jnum 7), ("result", .jnum 5)])
  else if s = "lineB" then some (.jobj [("id", .jnum 2), ("result", .jstr "yes")])
  else none

/-- Event-stream tool call response containing envelopes with ids 7 and 2. -/
def sseResponse : HttpResponse :=
  { ok := true, status := 200, sessionHeader := none
    contentType := some "text/event-stream"
    bodyText := "data: lineA\ndata: lineB", bodyJson := none }

/-- Event-stream tool call response containing no envelope with id 2. -/
def sseNoMatchResponse : HttpResponse :=
  { ok := true, status := 200, sessionHeader := none
    contentType := some "text/event-stream"
    bodyText := "data: lineA\nnoise", bodyJson := none }

/-- A settled-results vector where the primary twitter alias resolved to the
empty string, the secondary alias resolved to alt, and every other lookup
rejected. -/
def sampleSettled : Fin 11 → Settled := fun i =>
  if i = 4 then .fulfilled (some "")
  else if i = 5 then .fulfilled (some "alt")
  else .rejected

/-! ### Helper lemmas about the map model -/

theorem mapGet_append_self {α : Type} (m : List (String × α)) (k : String) (v : α)
    (h : mapGet m k = none) : mapGet (m ++ [(k, v)]) k = some v := by
  induction m with
  | nil => simp [mapGet]
  | cons p rest ih =>
    by_cases hp : p.1 = k
    · simp [mapGet, hp] at h
    · simp only [mapGet, hp, if_false, List.cons_append]
      exact ih (by simpa [mapGet, hp] using h)

theorem mapGet_append_ne {α : Type} (m : List (String × α)) (k k' : String) (v : α)
    (h : k ≠ k') : mapGet (m ++ [(k, v)]) k' = mapGet m k' := by
  induction m with
  | nil => simp [mapGet, h]
  | cons p rest ih =>
    by_cases hp : p.1 = k'
    · simp [mapGet, hp]
    · simp only [List.cons_append, mapGet, hp, if_false]
      exact ih

theorem mapGet_overwrite {α : Type} (m : List (String × α)) (k : String) (v : α) :
    mapGet (m.map (fun p => if p.1 = k then (k, v) else p)) k
      = (mapGet m k).map (fun _ => v) := by
  induction m with
  | nil => simp [mapGet]
  | cons p rest ih =>
    by_cases hp : p.1 = k
    · simp [mapGet, hp]
    · simp only [List.map_cons, hp, if_false, mapGet, ih]

theorem mapGet_overwrite_ne {α : Type} (m : List (String × α)) (k k' : String) (v : α)
    (h : k ≠ k') :
    mapGet (m.map (fun p => if p.1 = k then (k, v) else p)) k' = mapGet m k' := by
  induction m with
  | nil => simp [mapGet]
  | cons p rest ih =>
    by_cases hp : p.1 = k
    · simp only [List.map_cons, if_pos hp, mapGet, ih]
      rw [if_neg h, if_neg (by rw [hp]; exact h)]
    · simp only [List.map_cons, if_neg hp, mapGet, ih]

theorem mapGet_mapSet_self {α : Type} (m : List (String × α)) (k : String) (v : α) :
    mapGet (mapSet m k v) k = some v := by
  unfold mapSet
  by_cases hc : mapContains m k
  · rw [if_pos hc, mapGet_overwrite]
    rcases Option.isSome_iff_exists.mp hc with ⟨x, hx⟩
    simp [hx]
  · rw [if_neg hc]
    have : mapGet m k = none := by
      rcases h : mapGet m k with _ | x
      · rfl
      · exact absurd (by simp [mapContains, h]) hc
    exact mapGet_append_self m k v this

theorem mapGet_mapSet_ne {α : Type} (m : List (String × α)) (k k' : String) (v : α)
    (h : k ≠ k') : mapGet (mapSet m k v) k' = mapGet m k' := by
  unfold mapSet
  by_cases hc : mapContains m k
  · rw [if_pos hc, mapGet_overwrite_ne m k k' v h]
  · rw [if_neg hc, mapGet_append_ne m k k' v h]

theorem mapContains_mapSet_self {α : Type} (m : List (String × α)) (k : String) (v : α) :
    mapContains (mapSet m k v) k = true := by
  simp [mapContains, mapGet_mapSet_self]

theorem not_mem_keys_of_mapGet_none {α : Type} (m : List (String × α)) (k : String)
    (h : mapGet m k = none) : k ∉ keysOf m := by
  induction m with
  | nil => simp [keysOf]
  | cons p rest ih =>
    by_cases hp : p.1 = k
    · rw [mapGet, if_pos hp] at h
      cases h
    · rw [mapGet, if_neg hp] at h
      simp only [keysOf, List.map_cons, List.mem_cons, not_or]
      refine ⟨fun hh => hp hh.symm, ?_⟩
      simpa [keysOf] using ih h

theorem keysOf_mapSet_nodup {α : Type} (m : List (String × α)) (k : String) (v : α)
    (h : (keysOf m).Nodup) : (keysOf (mapSet m k v)).Nodup := by
  unfold mapSet
  by_cases hc : mapContains m k
  · rw [if_pos hc]
    have : keysOf (m.map (fun p => if p.1 = k then (k, v) else p)) = keysOf m := by
      simp only [keysOf, List.map_map]
      apply List.map_congr_left
      intro p _
      by_cases hp : p.1 = k
      · simp [hp]
      · simp [hp]
    rw [this]; exact h
  · rw [if_neg hc]
    have hk : k ∉ keysOf m := by
      apply not_mem_keys_of_mapGet_none
      rcases hg : mapGet m k with _ | x
      · rfl
      · exact absurd (by simp [mapContains, hg]) hc
    have hkeq : keysOf (m ++ [(k, v)]) = keysOf m ++ [k] := by simp [keysOf]
    rw [hkeq]
    refine List.Nodup.append h (List.nodup_singleton k) ?_
    intro x hx hx'
    rcases List.mem_singleton.mp hx' with rfl
    exact hk hx

/-! ### Helper lemmas about the batch resolvers -/

theorem lastKeyMatch_cons (a : String) (rest : List String) (k : String) :
    lastKeyMatch (a :: rest) k
      = match lastKeyMatch rest k with
        | some b => some b
        | none => if lowerStr a = k then some a else none := rfl

theorem settleBatch_get_aux {β : Type} (record : String → β) (k : String) :
    ∀ (l : List String) (m : List (String × β)),
      mapGet (List.foldl (fun results a => mapSet results (lowerStr a) (record a)) m l) k
        = match lastKeyMatch l k with
          | some a => some (record a)
          | none => mapGet m k := by
  intro l
  induction l with
  | nil => intro m; simp [lastKeyMatch]
  | cons a rest ih =>
    intro m
    simp only [List.foldl_cons]
    rw [ih, lastKeyMatch_cons]
    rcases h : lastKeyMatch rest k with _ | b
    · simp only [h]
      by_cases hk : lowerStr a = k
      · rw [if_pos hk, hk]
        simp [mapGet_mapSet_self]
      · rw [if_neg hk]
        simpa using mapGet_mapSet_ne m (lowerStr a) k (record a) hk
    · simp only [h]

theorem settleBatch_get {β : Type} (record : String → β) (l : List String) (k : String) :
    mapGet (settleBatch record l) k = (lastKeyMatch l k).map record := by
  unfold settleBatch
  rw [settleBatch_get_aux]
  rcases lastKeyMatch l k with _ | a <;> simp [mapGet]

theorem lastKeyMatch_isSome_of_mem (l : List String) (a : String) (h : a ∈ l) :
    (lastKeyMatch l (lowerStr a)).isSome = true := by
  induction l with
  | nil => cases h
  | cons b rest ih =>
    rw [lastKeyMatch_cons]
    rcases List.mem_cons.mp h with rfl | hm
    · rcases hh : lastKeyMatch rest (lowerStr a) with _ | c
      · simp [hh]
      · simp [hh]
    · have hs := ih hm
      rcases hh : lastKeyMatch rest (lowerStr a) with _ | c
      · rw [hh] at hs
        simp at hs
      · simp [hh]

theorem lastKeyMatch_spec (l : List String) (k a : String)
    (h : lastKeyMatch l k = some a) : a ∈ l ∧ lowerStr a = k := by
  induction l with
  | nil => cases h
  | cons b rest ih =>
    rw [lastKeyMatch_cons] at h
    rcases hh : lastKeyMatch rest k with _ | c
    · simp only [hh] at h
      by_cases hk : lowerStr b = k
      · rw [if_pos hk] at h
        cases h
        exact ⟨List.mem_cons_self _ _, hk⟩
      · rw [if_neg hk] at h
        cases h
    · simp only [hh] at h
      cases h
      rcases ih hh with ⟨hm, hl⟩
      exact ⟨List.mem_cons_of_mem _ hm, hl⟩

theorem settleBatch_keys_nodup {β : Type} (record : String → β) (l : List String) :
    (keysOf (settleBatch record l)).Nodup := by
  unfold settleBatch
  have aux : ∀ (l2 : List String) (m : List (String × β)), (keysOf m).Nodup →
      (keysOf (List.foldl (fun results a => mapSet results (lowerStr a) (record a)) m l2)).Nodup := by
    intro l2
    induction l2 with
    | nil => intro m hm; simpa using hm
    | cons a rest ih =>
      intro m hm
      simp only [List.foldl_cons]
      exact ih _ (keysOf_mapSet_nodup _ _ _ hm)
  exact aux l [] (by simp [keysOf])

theorem settleBatch_contains {β : Type} (record : String → β) (l : List String) (k : String) :
    mapContains (settleBatch record l) k = (lastKeyMatch l k).isSome := by
  simp [mapContains, settleBatch_get]

/-! ### Helper lemmas about the endpoint loop -/

theorem tryEndpoints_all_miss (oracle : Nat → LookupOutcome) :
    ∀ (n start : Nat),
      (∀ k, k < n → oracle (start + k) = .failure ∨ oracle (start + k) = .empty) →
      tryEndpoints oracle start n = (none, n) := by
  intro n
  induction n with
  | zero => intro start _; rfl
  | succ m ih =>
    intro start h
    have h0 := h 0 (Nat.succ_pos m)
    have hrest : ∀ k, k < m → oracle (start + 1 + k) = .failure ∨ oracle (start + 1 + k) = .empty := by
      intro k hk
      have := h (k + 1) (by omega)
      simpa [Nat.add_assoc, Nat.add_comm 1 k] using this
    rcases h0 with h0 | h0 <;>
      simp [tryEndpoints, Nat.add_zero] at h0 ⊢ <;>
      simp [h0, ih (start + 1) hrest]

theorem tryEndpoints_calls_pos (oracle : Nat → LookupOutcome) (start n : Nat)
    (h : 0 < n) : 0 < (tryEndpoints oracle start n).2 := by
  cases n with
  | zero => cases h
  | succ m =>
    rw [tryEndpoints]
    rcases oracle start with _ | s | _
    · simp
    · by_cases hs : s ≠ ""
      · simp [hs]
      · simp [hs]
    · simp

theorem tryEndpoints_found_ne (oracle : Nat → LookupOutcome) :
    ∀ (n start : Nat) (s : String), (tryEndpoints oracle start n).1 = some s → s ≠ "" := by
  intro n
  induction n with
  | zero => intro start s h; cases h
  | succ m ih =>
    intro start s h
    rw [tryEndpoints] at h
    rcases ho : oracle start with _ | t | _
    · simp only [ho] at h
      exact ih (start + 1) s h
    · simp only [ho] at h
      by_cases ht : t ≠ ""
      · rw [if_pos ht] at h
        cases h
        exact ht
      · rw [if_neg ht] at h
        exact ih (start + 1) s h
    · simp only [ho] at h
      exact ih (start + 1) s h

/-! ### Helper lemmas about response decoding -/

theorem parseSSELines_id (parse : String → Option Json) (expectedId : Int) :
    ∀ (lines : List String) (j : Json),
      parseSSELines parse expectedId lines = some j →
      jsonIdEq (j.get "id") expectedId = true := by
  intro lines
  induction lines with
  | nil => intro j h; cases h
  | cons line rest ih =>
    intro j h
    rw [parseSSELines] at h
    rcases hd : dataLinePayload line.data with _ | payload
    · simp only [hd] at h
      exact ih j h
    · simp only [hd] at h
      rcases hp : parse (String.mk payload) with _ | d
      · simp only [hp] at h
        exact ih j h
      · simp only [hp] at h
        by_cases hid : jsonIdEq (d.get "id") expectedId = true
        · rw [if_pos hid] at h
          cases h
          exact hid
        · rw [if_neg hid] at h
          exact ih j h

theorem callToolSend_assignedId (parse : String → Option Json) (st1 : MCPState)
    (callNet : FetchOutcome) (base : Nat) :
    (callToolSend parse st1 callNet base).assignedId = some st1.requestId := by
  rcases callNet with m | r
  · rfl
  · rw [callToolSend]
    by_cases hok : r.ok = true
    · simp only [hok, Bool.not_true, Bool.false_eq_true, if_false]
      by_cases hct : contentTypeIsEventStream r.contentType = true
      · simp only [hct, if_true]
        rcases hp : parseSSEResponse parse r.bodyText st1.requestId with _ | d
        · rfl
        · by_cases hje : jsFieldTruthy d "error" = true
          · simp [hje]
          · simp [hje]
      · simp only [hct, if_false]
        rcases r.bodyJson with _ | j
        · rfl
        · by_cases hje : jsFieldTruthy j "error" = true
          · simp [hje]
          · simp [hje]
    · simp [hok]

theorem callTool_eq_send (parse : String → Option Json) (st : MCPState)
    (connectNet callNet : FetchOutcome) (hcv : st.configValid = true) :
    (st.initialized = true →
      callTool parse st connectNet callNet = callToolSend parse st callNet 0) ∧
    (st.initialized = false → (connect parse st connectNet).error = none →
      callTool parse st connectNet callNet
        = callToolSend parse (connect parse st connectNet).state callNet
            (connect parse st connectNet).networkCalls) ∧
    (∀ e, st.initialized = false → (connect parse st connectNet).error = some e →
      callTool parse st connectNet callNet
        = { state := (connect parse st connectNet).state, result := .error e
            networkCalls := (connect parse st connectNet).networkCalls
            assignedId := none }) := by
  refine ⟨fun hin => ?_, fun hin hce => ?_, fun e hin hce => ?_⟩
  · rw [callTool]
    simp [hcv, hin]
  · rw [callTool]
    simp [hcv, hin, hce]
  · rw [callTool]
    simp [hcv, hin, hce]

theorem callToolSend_sse (parse : String → Option Json) (st1 : MCPState)
    (r : HttpResponse) (base : Nat)
    (hok : r.ok = true) (hct : contentTypeIsEventStream r.contentType = true) :
    (∀ v, (callToolSend parse st1 (.success r) base).result = .ok v →
      ∃ d, parseSSEResponse parse r.bodyText st1.requestId = some d ∧
        jsonIdEq (d.get "id") st1.requestId = true ∧ v = d.get "result") ∧
    (parseSSEResponse parse r.bodyText st1.requestId = none →
      (callToolSend parse st1 (.success r) base).result
        = .error "No valid response found in SSE stream") := by
  constructor
  · intro v hv
    rw [callToolSend] at hv
    simp only [hok, Bool.not_true, Bool.false_eq_true, if_false, hct, if_true] at hv
    rcases hp : parseSSEResponse parse r.bodyText st1.requestId with _ | d
    · simp only [hp] at hv
      cases hv
    · simp only [hp] at hv
      by_cases hje : jsFieldTruthy d "error" = true
      · rw [if_pos hje] at hv
        cases hv
      · rw [if_neg hje] at hv
        cases hv
        exact ⟨d, rfl, parseSSELines_id parse _ (splitLines r.bodyText) d hp, rfl⟩
  · intro hnone
    rw [callToolSend]
    simp only [hok, Bool.not_true, Bool.false_eq_true, if_false, hct, if_true, hnone]

/-! ### Helper lemmas about the address scanner -/

theorem addrAt_elim {l : List Char} (h : addrAt l = true) :
    ∃ rest, l = '0' :: 'x' :: rest ∧ 40 ≤ rest.length ∧ (rest.take 40).all hexDigit = true := by
  unfold addrAt at h
  split at h
  · rename_i rest
    refine ⟨rest, rfl, ?_, ?_⟩
    · have := (Bool.and_eq_true _ _).mp h
      exact Nat.le_of_ble_eq_true (by simpa using this.1)
    · exact ((Bool.and_eq_true _ _).mp h).2
  · cases h

theorem ethAddressShapeChars_take (rest : List Char) (hlen : 40 ≤ rest.length)
    (hhex : (rest.take 40).all hexDigit = true) :
    ethAddressShapeChars ('0' :: 'x' :: rest.take 40) = true := by
  unfold ethAddressShapeChars
  have hl : (rest.take 40).length = 40 := by
    simp [List.length_take, Nat.min_eq_left hlen]
  simp [hl, hhex]

theorem scanAddressesFuel_shape :
    ∀ (fuel : Nat) (l m : List Char),
      m ∈ scanAddressesFuel fuel l → ethAddressShapeChars m = true := by
  intro fuel
  induction fuel with
  | zero =>
    intro l m h
    simp [scanAddressesFuel] at h
  | succ n ih =>
    intro l m h
    cases l with
    | nil => simp [scanAddressesFuel] at h
    | cons c cs =>
      rw [scanAddressesFuel] at h
      by_cases ha : addrAt (c :: cs) = true
      · rw [if_pos ha] at h
        rcases List.mem_cons.mp h with rfl | hm
        · rcases addrAt_elim ha with ⟨rest, heq, hlen, hhex⟩
          cases heq
          simpa using ethAddressShapeChars_take rest hlen hhex
        · exact ih _ _ hm
      · rw [if_neg ha] at h
        exact ih _ _ h

/-! ### Helper lemmas about deduplication -/

theorem mem_foldl_insertUnique :
    ∀ (l acc : List String) (x : String),
      x ∈ List.foldl insertUnique acc l ↔ x ∈ acc ∨ x ∈ l := by
  intro l
  induction l with
  | nil => intro acc x; simp
  | cons a rest ih =>
    intro acc x
    simp only [List.foldl_cons, ih, insertUnique]
    by_cases ha : a ∈ acc
    · rw [if_pos ha]
      constructor
      · rintro (hx | hx)
        · exact Or.inl hx
        · exact Or.inr (List.mem_cons_of_mem _ hx)
      · rintro (hx | hx)
        · exact Or.inl hx
        · rcases List.mem_cons.mp hx with rfl | hx
          · exact Or.inl ha
          · exact Or.inr hx
    · rw [if_neg ha]
      simp only [List.mem_append, List.mem_singleton, List.mem_cons]
      tauto

theorem nodup_foldl_insertUnique :
    ∀ (l acc : List String), acc.Nodup → (List.foldl insertUnique acc l).Nodup := by
  intro l
  induction l with
  | nil => intro acc h; simpa using h
  | cons a rest ih =>
    intro acc h
    simp only [List.foldl_cons]
    apply ih
    unfold insertUnique
    by_cases ha : a ∈ acc
    · rw [if_pos ha]; exact h
    · rw [if_neg ha]
      refine List.Nodup.append h (List.nodup_singleton a) ?_
      intro x hx hx'
      rcases List.mem_singleton.mp hx' with rfl
      exact ha hx

theorem mem_uniqueList (l : List String) (x : String) : x ∈ uniqueList l ↔ x ∈ l := by
  unfold uniqueList
  rw [mem_foldl_insertUnique]
  simp

theorem uniqueList_nodup (l : List String) : (uniqueList l).Nodup :=
  nodup_foldl_insertUnique l [] List.nodup_nil

theorem lastKeyMatch_eq_of_unique (l : List String) (a : String) (ha : a ∈ l)
    (hu : ∀ b, b ∈ l → lowerStr b = lowerStr a → b = a) :
    lastKeyMatch l (lowerStr a) = some a := by
  induction l with
  | nil => cases ha
  | cons b rest ih =>
    rw [lastKeyMatch_cons]
    rcases hh : lastKeyMatch rest (lowerStr a) with _ | c
    · simp only [hh]
      have hb : b = a := by
        rcases List.mem_cons.mp ha with rfl | hm
        · rfl
        · have hs := lastKeyMatch_isSome_of_mem rest a hm
          rw [hh] at hs
          cases hs
      rw [hb, if_pos rfl]
    · simp only [hh]
      have hc := lastKeyMatch_spec rest (lowerStr a) c hh
      have hca : c = a := hu c (List.mem_cons_of_mem _ hc.1) hc.2
      rw [hca]

/-! ### Claim theorems -/

/-- C9: connect() is a no-op, with no network call and no state change, when
the client is already initialized, and when the client is not initialized
and no access token is configured it fails with the configuration error,
again without any network call; the constructor marks a client built
without a token as not configured. -/
theorem connect_noop_and_config_error (parse : String → Option Json) (st : MCPState)
    (net : FetchOutcome) :
    (st.initialized = true →
      connect parse st net = { state := st, error := none, networkCalls := 0 }) ∧
    (st.initialized = false → st.configValid = false →
      connect parse st net =
        { state := st, error := some "OpenSea MCP token not configured", networkCalls := 0 }) ∧
    (mkClient "").configValid = false ∧ (mkClient "").initialized = false := by
  refine ⟨fun h => ?_, fun h1 h2 => ?_, rfl, rfl⟩
  · simp [connect, h]
  · simp [connect, h1, h2]

/-- Witness for C9: the unconfigured client fails connect() with the
configuration error and zero network calls. -/
theorem connect_noop_and_config_error_witness :
    connect (fun _ => none) (mkClient "") (.thrown "x")
      = { state := mkClient "", error := some "OpenSea MCP token not configured"
          networkCalls := 0 } :=
  (connect_noop_and_config_error (fun _ => none) (mkClient "") (.thrown "x")).2.1 rfl rfl

/-- C10: for every input string that does not match the address shape, the
external validator rejects it and resolveAddressToENS returns null with the
cache untouched and zero network lookups. -/
theorem resolveAddressToENS_invalid_address (checksumOk : String → Bool) (hasEnvRpc : Bool)
    (oracle : Nat → LookupOutcome) (cache : List (String × Option String)) (s : String)
    (h : ethAddressShape s = false) :
    isAddress checksumOk s = false ∧
    (resolveAddressToENS checksumOk hasEnvRpc oracle cache s).value = none ∧
    (resolveAddressToENS checksumOk hasEnvRpc oracle cache s).cache = cache ∧
    (resolveAddressToENS checksumOk hasEnvRpc oracle cache s).networkCalls = 0 := by
  have hi : isAddress checksumOk s = false := by simp [isAddress, h]
  refine ⟨hi, ?_, ?_, ?_⟩ <;> simp [resolveAddressToENS, hi]

/-- Witness for C10 at the concrete non-address input hello. -/
theorem resolveAddressToENS_invalid_address_witness :
    isAddress (fun _ => true) "hello" = false ∧
    (resolveAddressToENS (fun _ => true) false (fun _ => .failure) [] "hello").value = none ∧
    (resolveAddressToENS (fun _ => true) false (fun _ => .failure) [] "hello").cache = [] ∧
    (resolveAddressToENS (fun _ => true) false (fun _ => .failure) [] "hello").networkCalls = 0 :=
  resolveAddressToENS_invalid_address (fun _ => true) false (fun _ => .failure) [] "hello"
    (by decide)

/-- C2: evaluation of connect() on an event-stream handshake whose only data
line carries an explicit error object with message bad creds.  The source
intends to raise here, but the throw sits inside the try whose catch skips
malformed JSON lines, so it is swallowed: connect() raises nothing and
leaves the client in the initialized state, contradicting the claim and
the documented intent of the code itself. -/
theorem connect_stream_error_swallowed :
    (connect streamErrorParse (mkClient "token") (.success streamErrorResponse)).error = none ∧
    (connect streamErrorParse (mkClient "token")
        (.success streamErrorResponse)).state.initialized = true ∧
    streamErrorParse "errline"
      = some (.jobj [("id", .jnum 1), ("error", .jobj [("message", .jstr "bad creds")])]) ∧
    jsFieldTruthy
      (.jobj [("id", .jnum 1), ("error", .jobj [("message", .jstr "bad creds")])]) "error"
      = true :=
  ⟨rfl, rfl, rfl, rfl⟩

/-- Counterexample to C1 as stated: for a configured but not yet initialized
client whose handshake fetch throws, listTools() propagates the connect
error instead of returning the static catalog, because the implicit
connect() happens outside the try/catch that provides the fallback. -/
theorem listTools_connect_failure_raises :
    (listTools (fun _ => none) (mkClient "token") (.thrown "network down") (.thrown "x")).result
      = .error "OpenSea MCP connection failed: network down" ∧
    (mkClient "token").configValid = true ∧
    (mkClient "token").initialized = false :=
  ⟨rfl, rfl, rfl⟩

/-- Counterexample to C3 as stated: a tool call on a connected client with
assigned request id 2 that receives a single-JSON response whose envelope
carries id 999 still returns that envelope's result, because the
single-JSON branch performs no id comparison; so callTool does return a
result from an envelope whose id differs from the id it assigned. -/
theorem callTool_json_id_unchecked :
    (callTool (fun _ => none) connectedClient (.thrown "unused")
        (.success jsonMismatchResponse)).result = .ok (some (.jnum 42)) ∧
    (callTool (fun _ => none) connectedClient (.thrown "unused")
        (.success jsonMismatchResponse)).assignedId = some 2 ∧
    jsonMismatchResponse.bodyJson = some (.jobj [("id", .jnum 999), ("result", .jnum 42)]) ∧
    jsonIdEq ((Json.jobj [("id", .jnum 999), ("result", .jnum 42)]).get "id") 2 = false :=
  ⟨rfl, rfl, rfl, rfl⟩

/-- C4: when the address is valid, not cached, and every endpoint lookup
either throws or returns empty, resolveAddressToENS returns null, caches
the null outcome under the lowercased address, and consumes exactly the
whole endpoint list; no error escapes (the function yields a value on
every such oracle). -/
theorem resolveAddressToENS_all_endpoints_fail (checksumOk : String → Bool)
    (hasEnvRpc : Bool) (oracle : Nat → LookupOutcome)
    (cache : List (String × Option String)) (address : String)
    (hv : isAddress checksumOk address = true)
    (hm : mapContains cache (lowerStr address) = false)
    (hall : ∀ k, k < rpcEndpointCount hasEnvRpc + fallbackChainCount →
      oracle k = .failure ∨ oracle k = .empty) :
    (resolveAddressToENS checksumOk hasEnvRpc oracle cache address).value = none ∧
    mapGet (resolveAddressToENS checksumOk hasEnvRpc oracle cache address).cache
      (lowerStr address) = some none ∧
    (resolveAddressToENS checksumOk hasEnvRpc oracle cache address).networkCalls
      = rpcEndpointCount hasEnvRpc + fallbackChainCount := by
  have ht : tryEndpoints oracle 0 (rpcEndpointCount hasEnvRpc + fallbackChainCount)
      = (none, rpcEndpointCount hasEnvRpc + fallbackChainCount) :=
    tryEndpoints_all_miss oracle _ 0 (by simpa using hall)
  refine ⟨?_, ?_, ?_⟩ <;>
    simp [resolveAddressToENS, hv, hm, ht, mapGet_mapSet_self]

/-- Witness for C4: all endpoints throwing on a fresh cache and a valid
lowercase address. -/
theorem resolveAddressToENS_all_endpoints_fail_witness :
    (resolveAddressToENS (fun _ => true) false (fun _ => .failure) [] sampleAddress).value
      = none ∧
    mapGet (resolveAddressToENS (fun _ => true) false (fun _ => .failure) [] sampleAddress).cache
      (lowerStr sampleAddress) = some none ∧
    (resolveAddressToENS (fun _ => true) false (fun _ => .failure) [] sampleAddress).networkCalls
      = rpcEndpointCount false + fallbackChainCount :=
  resolveAddressToENS_all_endpoints_fail (fun _ => true) false (fun _ => .failure) []
    sampleAddress (by decide) (by decide) (fun k _ => Or.inl rfl)

/-- C5: the cache discipline of resolveAddressToENS.  First conjunct: a
cache hit issues no network lookup and leaves the cache unchanged.  Second
conjunct: any resolution of a valid address leaves its lowercased key
cached.  Third conjunct: resolving the same hex digits a second time, in
any casing, on the cache produced by the first resolution issues no
network lookup.  Fourth conjunct: the second resolution returns the same
outcome the first one returned.  Fifth conjunct: after clearENSCache the
same lookup issues at least one new network lookup. -/
theorem ens_cache_idempotence (checksumOk chk2 : String → Bool) (hasEnvRpc he2 : Bool)
    (oracle o2 : Nat → LookupOutcome) (cache : List (String × Option String))
    (a b : String) (st : ENSCacheState) :
    (isAddress checksumOk a = true → mapContains cache (lowerStr a) = true →
      (resolveAddressToENS checksumOk hasEnvRpc oracle cache a).networkCalls = 0 ∧
      (resolveAddressToENS checksumOk hasEnvRpc oracle cache a).cache = cache) ∧
    (isAddress checksumOk a = true →
      mapContains (resolveAddressToENS checksumOk hasEnvRpc oracle cache a).cache
        (lowerStr a) = true) ∧
    (isAddress checksumOk a = true → isAddress chk2 b = true → lowerStr b = lowerStr a →
      (resolveAddressToENS chk2 he2 o2
        (resolveAddressToENS checksumOk hasEnvRpc oracle cache a).cache b).networkCalls = 0) ∧
    (isAddress checksumOk a = true → isAddress chk2 b = true → lowerStr b = lowerStr a →
      mapContains cache (lowerStr a) = false →
      (resolveAddressToENS chk2 he2 o2
          (resolveAddressToENS checksumOk hasEnvRpc oracle cache a).cache b).value
        = (resolveAddressToENS checksumOk hasEnvRpc oracle cache a).value) ∧
    (isAddress checksumOk a = true →
      0 < (resolveAddressToENS checksumOk hasEnvRpc oracle
        (clearENSCache st).names a).networkCalls) := by
  have hcached : isAddress checksumOk a = true →
      mapContains (resolveAddressToENS checksumOk hasEnvRpc oracle cache a).cache
        (lowerStr a) = true := by
    intro hv
    by_cases hm : mapContains cache (lowerStr a) = true
    · simp [resolveAddressToENS, hv, hm]
    · rcases htr : (tryEndpoints oracle 0
          (rpcEndpointCount hasEnvRpc + fallbackChainCount)).1 with _ | s
      · simp [resolveAddressToENS, hv, hm, htr, mapContains_mapSet_self]
      · simp [resolveAddressToENS, hv, hm, htr, mapContains_mapSet_self]
  refine ⟨fun hv hm => ?_, hcached, fun hv hb heq => ?_, fun hv hb heq hm => ?_, fun hv => ?_⟩
  · constructor <;> simp [resolveAddressToENS, hv, hm]
  · generalize hg : (resolveAddressToENS checksumOk hasEnvRpc oracle cache a).cache = c1
    have hc2 : mapContains c1 (lowerStr b) = true := by
      rw [← hg, heq]; exact hcached hv
    simp [resolveAddressToENS, hb, hc2]
  · have hm' : mapContains cache (lowerStr a) = false := hm
    rcases htr : (tryEndpoints oracle 0
        (rpcEndpointCount hasEnvRpc + fallbackChainCount)).1 with _ | s
    · have hfc : (resolveAddressToENS checksumOk hasEnvRpc oracle cache a).cache
          = mapSet cache (lowerStr a) none := by
        simp [resolveAddressToENS, hv, hm', htr]
      have hfv : (resolveAddressToENS checksumOk hasEnvRpc oracle cache a).value = none := by
        simp [resolveAddressToENS, hv, hm', htr]
      have hc2 : mapContains (mapSet cache (lowerStr a) (none : Option String))
          (lowerStr b) = true := by
        rw [heq]; exact mapContains_mapSet_self _ _ _
      have hg2 : mapGet (mapSet cache (lowerStr a) (none : Option String)) (lowerStr b)
          = some none := by
        rw [heq]; exact mapGet_mapSet_self _ _ _
      rw [hfc, hfv]
      simp [resolveAddressToENS, hb, hc2, hg2]
    · have hs : s ≠ "" := tryEndpoints_found_ne oracle _ 0 s htr
      have hfc : (resolveAddressToENS checksumOk hasEnvRpc oracle cache a).cache
          = mapSet cache (lowerStr a) (some s) := by
        simp [resolveAddressToENS, hv, hm', htr]
      have hfv : (resolveAddressToENS checksumOk hasEnvRpc oracle cache a).value = some s := by
        simp [resolveAddressToENS, hv, hm', htr]
      have hc2 : mapContains (mapSet cache (lowerStr a) (some s)) (lowerStr b) = true := by
        rw [heq]; exact mapContains_mapSet_self _ _ _
      have hg2 : mapGet (mapSet cache (lowerStr a) (some s)) (lowerStr b) = some (some s) := by
        rw [heq]; exact mapGet_mapSet_self _ _ _
      rw [hfc, hfv]
      simp [resolveAddressToENS, hb, hc2, hg2, hs]
  · have hm0 : mapContains (clearENSCache st).names (lowerStr a) = false := by
      simp [clearENSCache, mapContains, mapGet]
    have hpos : 0 < rpcEndpointCount hasEnvRpc + fallbackChainCount := by
      cases hasEnvRpc <;> decide
    rcases htr : (tryEndpoints oracle 0
        (rpcEndpointCount hasEnvRpc + fallbackChainCount)) with ⟨v, calls⟩
    have hcalls : 0 < calls := by
      have := tryEndpoints_calls_pos oracle 0
        (rpcEndpointCount hasEnvRpc + fallbackChainCount) hpos
      rw [htr] at this
      exact this
    rcases v with _ | s
    · simp [resolveAddressToENS, hv, hm0, htr, hcalls]
    · simp [resolveAddressToENS, hv, hm0, htr, hcalls]

/-- Witness for C5: a second resolution of the same digits in another casing
hits the cache with zero lookups, and after a flush the lookup goes back to
the network. -/
theorem ens_cache_idempotence_witness :
    ((resolveAddressToENS (fun _ => true) false (fun _ => .failure)
        [(sampleAddress, some "vitalik.eth")] sampleAddressUpper).networkCalls = 0 ∧
      (resolveAddressToENS (fun _ => true) false (fun _ => .failure)
        [(sampleAddress, some "vitalik.eth")] sampleAddressUpper).cache
        = [(sampleAddress, some "vitalik.eth")]) ∧
    0 < (resolveAddressToENS (fun _ => true) false (fun _ => .failure)
        (clearENSCache { names := [(sampleAddress, some "vitalik.eth")], profiles := [] }).names
        sampleAddressUpper).networkCalls :=
  ⟨(ens_cache_idempotence (fun _ => true) (fun _ => true) false false (fun _ => .failure)
      (fun _ => .failure) [(sampleAddress, some "vitalik.eth")] sampleAddressUpper
      sampleAddressUpper
      { names := [(sampleAddress, some "vitalik.eth")], profiles := [] }).1
      (by decide) (by decide),
    (ens_cache_idempotence (fun _ => true) (fun _ => true) false false (fun _ => .failure)
      (fun _ => .failure) [(sampleAddress, some "vitalik.eth")] sampleAddressUpper
      sampleAddressUpper
      { names := [(sampleAddress, some "vitalik.eth")], profiles := [] }).2.2.2.2
      (by decide)⟩

/-- C6: the batch profile resolver.  The map entry at any key is fully
determined by the outcome of the last input address with that lowercased
key (so one failing address yields the terminal failed-state record for
its own key only and cannot disturb any other entry); every requested
address has an entry under its lowercase form; every key comes from some
requested address; keys are unique; and an address that fails and is
alone on its key is mapped to the terminal failed-state record. -/
theorem resolveMultipleProfiles_per_address (outcome : String → Except String ENSProfile)
    (addresses : List String) :
    (∀ k, mapGet (resolveMultipleProfiles outcome addresses) k
        = (lastKeyMatch addresses k).map (profileRecordOf outcome)) ∧
    (∀ a, a ∈ addresses →
      mapContains (resolveMultipleProfiles outcome addresses) (lowerStr a) = true) ∧
    (∀ k, mapContains (resolveMultipleProfiles outcome addresses) k = true →
      ∃ a, a ∈ addresses ∧ lowerStr a = k) ∧
    (keysOf (resolveMultipleProfiles outcome addresses)).Nodup ∧
    (∀ a e, a ∈ addresses → outcome a = .error e →
      (∀ b, b ∈ addresses → lowerStr b = lowerStr a → b = a) →
      mapGet (resolveMultipleProfiles outcome addresses) (lowerStr a)
        = some batchFailedProfile) := by
  refine ⟨fun k => ?_, fun a ha => ?_, fun k hk => ?_, ?_, fun a e ha herr hu => ?_⟩
  · exact settleBatch_get (profileRecordOf outcome) addresses k
  · rw [resolveMultipleProfiles, settleBatch_contains]
    exact lastKeyMatch_isSome_of_mem addresses a ha
  · rw [resolveMultipleProfiles, settleBatch_contains] at hk
    rcases Option.isSome_iff_exists.mp hk with ⟨a, hka⟩
    rcases lastKeyMatch_spec addresses k a hka with ⟨hm, hl⟩
    exact ⟨a, hm, hl⟩
  · exact settleBatch_keys_nodup (profileRecordOf outcome) addresses
  · rw [resolveMultipleProfiles, settleBatch_get,
      lastKeyMatch_eq_of_unique addresses a ha hu]
    simp [profileRecordOf, herr]

/-- Witness for C6: a single failing address yields its terminal
failed-state record under its lowercased key. -/
theorem resolveMultipleProfiles_per_address_witness :
    mapGet (resolveMultipleProfiles (fun _ => .error "boom") [sampleAddressUpper])
        (lowerStr sampleAddressUpper) = some batchFailedProfile ∧
    mapContains (resolveMultipleProfiles (fun _ => .error "boom") [sampleAddressUpper])
        (lowerStr sampleAddressUpper) = true :=
  ⟨(resolveMultipleProfiles_per_address (fun _ => .error "boom") [sampleAddressUpper]).2.2.2.2
      sampleAddressUpper "boom" (List.mem_singleton.mpr rfl) rfl
      (fun _ hb _ => List.mem_singleton.mp hb),
    (resolveMultipleProfiles_per_address (fun _ => .error "boom") [sampleAddressUpper]).2.1
      sampleAddressUpper (List.mem_singleton.mpr rfl)⟩

/-- C7: address extraction and the resolution map built over it.  Every
extracted string matches the 0x-plus-40-hex-digits shape (so nothing not
matching the shape is ever included); the extracted list is duplicate
free; and in the resolution map built from the extracted addresses every
extracted address, whatever its casing, owns exactly one entry keyed by
its lowercase form, and no other keys exist. -/
theorem extractAddresses_shape_dedup (text : String)
    (outcome : String → Except String (Option String)) :
    (∀ a, a ∈ extractAddresses text → ethAddressShape a = true) ∧
    (extractAddresses text).Nodup ∧
    (∀ a, a ∈ extractAddresses text →
      mapContains (resolveMultipleAddresses outcome (extractAddresses text))
        (lowerStr a) = true) ∧
    (∀ k, mapContains (resolveMultipleAddresses outcome (extractAddresses text)) k = true →
      ∃ a, a ∈ extractAddresses text ∧ lowerStr a = k) ∧
    (keysOf (resolveMultipleAddresses outcome (extractAddresses text))).Nodup := by
  refine ⟨fun a ha => ?_, uniqueList_nodup _, fun a ha => ?_, fun k hk => ?_, ?_⟩
  · rw [extractAddresses] at ha
    rcases List.mem_map.mp ((mem_uniqueList _ a).mp ha) with ⟨m, hm, rfl⟩
    exact scanAddressesFuel_shape _ _ m hm
  · rw [resolveMultipleAddresses, settleBatch_contains]
    exact lastKeyMatch_isSome_of_mem _ a ha
  · rw [resolveMultipleAddresses, settleBatch_contains] at hk
    rcases Option.isSome_iff_exists.mp hk with ⟨a, hka⟩
    rcases lastKeyMatch_spec _ k a hka with ⟨hm, hl⟩
    exact ⟨a, hm, hl⟩
  · exact settleBatch_keys_nodup (nameRecordOf outcome) (extractAddresses text)

set_option maxRecDepth 8000 in
/-- Witness for C7 on a payload containing the same address twice in two
casings next to a non-matching string: the extraction keeps the two exact
spellings once each, and the resolution map carries the single lowercase
key. -/
theorem extractAddresses_shape_dedup_witness :
    (∀ a, a ∈ extractAddresses
        ("from " ++ sampleAddressUpper ++ " to " ++ sampleAddress ++ " and " ++
          sampleAddressUpper ++ " not 0x1234") →
      ethAddressShape a = true) ∧
    (extractAddresses
        ("from " ++ sampleAddressUpper ++ " to " ++ sampleAddress ++ " and " ++
          sampleAddressUpper ++ " not 0x1234")).Nodup ∧
    mapContains (resolveMultipleAddresses (fun _ => .ok (some "vitalik.eth"))
        (extractAddresses
          ("from " ++ sampleAddressUpper ++ " to " ++ sampleAddress ++ " and " ++
            sampleAddressUpper ++ " not 0x1234")))
      (lowerStr sampleAddressUpper) = true :=
  ⟨(extractAddresses_shape_dedup _ (fun _ => .ok (some "vitalik.eth"))).1,
    (extractAddresses_shape_dedup _ (fun _ => .ok (some "vitalik.eth"))).2.1,
    (extractAddresses_shape_dedup _ (fun _ => .ok (some "vitalik.eth"))).2.2.1
      sampleAddressUpper (by decide)⟩

/-- C8: social field coalescing in profile resolution.  The twitter field
prefers a non-empty value from the com.twitter lookup and falls back to
the twitter lookup only when the primary yields null, a rejection, or the
empty string; likewise github with com.github and github; and each of
these fields depends only on its own two lookups, so a failure of any
other field lookup cannot change it. -/
theorem profile_social_coalescing (r r2 : Fin 11 → Settled) :
    (∀ s, settledValue (r 4) = some s → s ≠ "" →
      (profileFieldsOfEndpoint r).twitter = some s) ∧
    ((settledValue (r 4)).getD "" = "" →
      (profileFieldsOfEndpoint r).twitter = settledValue (r 5)) ∧
    (∀ s, settledValue (r 6) = some s → s ≠ "" →
      (profileFieldsOfEndpoint r).github = some s) ∧
    ((settledValue (r 6)).getD "" = "" →
      (profileFieldsOfEndpoint r).github = settledValue (r 7)) ∧
    (r 4 = r2 4 → r 5 = r2 5 →
      (profileFieldsOfEndpoint r).twitter = (profileFieldsOfEndpoint r2).twitter) ∧
    (r 6 = r2 6 → r 7 = r2 7 →
      (profileFieldsOfEndpoint r).github = (profileFieldsOfEndpoint r2).github) ∧
    (r 1 = r2 1 →
      (profileFieldsOfEndpoint r).description = (profileFieldsOfEndpoint r2).description) := by
  refine ⟨fun s hs hne => ?_, fun h => ?_, fun s hs hne => ?_, fun h => ?_,
    fun h4 h5 => ?_, fun h6 h7 => ?_, fun h1 => ?_⟩
  · simp [profileFieldsOfEndpoint, jsOrStr, hs, hne]
  · rcases hv : settledValue (r 4) with _ | t
    · simp [profileFieldsOfEndpoint, jsOrStr, hv]
    · rw [hv] at h
      simp only [Option.getD_some] at h
      simp [profileFieldsOfEndpoint, jsOrStr, hv, h]
  · simp [profileFieldsOfEndpoint, jsOrStr, hs, hne]
  · rcases hv : settledValue (r 6) with _ | t
    · simp [profileFieldsOfEndpoint, jsOrStr, hv]
    · rw [hv] at h
      simp only [Option.getD_some] at h
      simp [profileFieldsOfEndpoint, jsOrStr, hv, h]
  · simp [profileFieldsOfEndpoint, h4, h5]
  · simp [profileFieldsOfEndpoint, h6, h7]
  · simp [profileFieldsOfEndpoint, h1]

/-- Witness for C8: with the primary twitter alias fulfilled as the empty
string and the secondary alias fulfilled as alt, the coalesced field is
the secondary value. -/
theorem profile_social_coalescing_witness :
    (profileFieldsOfEndpoint sampleSettled).twitter = settledValue (sampleSettled 5) :=
  (profile_social_coalescing sampleSettled sampleSettled).2.1 rfl

/-- C1 amended: listTools() never raises and has the static non-empty
catalog as fallback in every case except one.  When the client is not
configured it returns the catalog without any network call; when the
client is configured and already initialized it always returns some value
(never raises), and specifically returns the static catalog when the
listing fetch throws, when the response is not ok, when the body carries a
truthy error field, when the body is not valid JSON, when the body has no
result field, when the result has no tools field, and when the tools
field is falsy; the catalog has ten entries.  The exception forced by the
counterexample: when the client is configured but not initialized and the
implicit connect() fails, listTools() propagates that connect error. -/
theorem listTools_fallback_amended (parse : String → Option Json) (st : MCPState)
    (connectNet listNet : FetchOutcome) :
    (st.configValid = false →
      listTools parse st connectNet listNet
        = { state := st, result := .ok (.jarr getKnownTools), networkCalls := 0 }) ∧
    (st.configValid = true → st.initialized = true →
      ∃ v, (listTools parse st connectNet listNet).result = .ok v) ∧
    (∀ m, st.configValid = true → st.initialized = true → listNet = .thrown m →
      (listTools parse st connectNet listNet).result = .ok (.jarr getKnownTools)) ∧
    (∀ r, st.configValid = true → st.initialized = true → listNet = .success r →
      r.ok = false →
      (listTools parse st connectNet listNet).result = .ok (.jarr getKnownTools)) ∧
    (∀ r j, st.configValid = true → st.initialized = true → listNet = .success r →
      r.ok = true → r.bodyJson = some j → jsFieldTruthy j "error" = true →
      (listTools parse st connectNet listNet).result = .ok (.jarr getKnownTools)) ∧
    (∀ r, st.configValid = true → st.initialized = true → listNet = .success r →
      r.ok = true → r.bodyJson = none →
      (listTools parse st connectNet listNet).result = .ok (.jarr getKnownTools)) ∧
    (∀ r j, st.configValid = true → st.initialized = true → listNet = .success r →
      r.ok = true → r.bodyJson = some j → jsFieldTruthy j "error" = false →
      j.get "result" = none →
      (listTools parse st connectNet listNet).result = .ok (.jarr getKnownTools)) ∧
    (∀ r j res, st.configValid = true → st.initialized = true → listNet = .success r →
      r.ok = true → r.bodyJson = some j → jsFieldTruthy j "error" = false →
      j.get "result" = some res → res.get "tools" = none →
      (listTools parse st connectNet listNet).result = .ok (.jarr getKnownTools)) ∧
    (∀ r j res t, st.configValid = true → st.initialized = true → listNet = .success r →
      r.ok = true → r.bodyJson = some j → jsFieldTruthy j "error" = false →
      j.get "result" = some res → res.get "tools" = some t → t.truthy = false →
      (listTools parse st connectNet listNet).result = .ok (.jarr getKnownTools)) ∧
    (∀ e, st.configValid = true → st.initialized = false →
      (connect parse st connectNet).error = some e →
      (listTools parse st connectNet listNet).result = .error e) ∧
    getKnownTools.length = 10 := by
  refine ⟨fun hc => ?_, fun hc hi => ?_, fun m hc hi hl => ?_, fun r hc hi hl hok => ?_,
    fun r j hc hi hl hok hj hjerr => ?_, fun r hc hi hl hok hbj => ?_,
    fun r j hc hi hl hok hbj hje hres => ?_,
    fun r j res hc hi hl hok hbj hje hres htl => ?_,
    fun r j res t hc hi hl hok hbj hje hres htl htr => ?_,
    fun e hc hi herr => ?_, rfl⟩
  · simp [listTools, hc]
  · rcases listNet with m | r
    · exact ⟨.jarr getKnownTools, by simp [listTools, hc, hi]⟩
    · by_cases hok : r.ok = true
      · rcases hbj : r.bodyJson with _ | j
        · exact ⟨.jarr getKnownTools, by simp [listTools, hc, hi, hok, hbj]⟩
        · by_cases hje : jsFieldTruthy j "error" = true
          · exact ⟨.jarr getKnownTools, by simp [listTools, hc, hi, hok, hbj, hje]⟩
          · rcases hres : j.get "result" with _ | res
            · exact ⟨.jarr getKnownTools, by simp [listTools, hc, hi, hok, hbj, hje, hres]⟩
            · rcases htl : res.get "tools" with _ | t
              · exact ⟨.jarr getKnownTools,
                  by simp [listTools, hc, hi, hok, hbj, hje, hres, htl]⟩
              · by_cases htr : t.truthy = true
                · exact ⟨t, by simp [listTools, hc, hi, hok, hbj, hje, hres, htl, htr]⟩
                · exact ⟨.jarr getKnownTools,
                    by simp [listTools, hc, hi, hok, hbj, hje, hres, htl, htr]⟩
      · exact ⟨.jarr getKnownTools, by simp [listTools, hc, hi, hok]⟩
  · subst hl
    simp [listTools, hc, hi]
  · subst hl
    simp [listTools, hc, hi, hok]
  · subst hl
    simp [listTools, hc, hi, hok, hj, hjerr]
  · subst hl
    simp [listTools, hc, hi, hok, hbj]
  · subst hl
    simp [listTools, hc, hi, hok, hbj, hje, hres]
  · subst hl
    simp [listTools, hc, hi, hok, hbj, hje, hres, htl]
  · subst hl
    simp [listTools, hc, hi, hok, hbj, hje, hres, htl, htr]
  · simp [listTools, hc, hi, herr]

/-- Witness for C1 amended: the unconfigured client, an initialized client
whose listing fetch throws, and an initialized client whose listing
response body is not valid JSON, all receive the static catalog. -/
theorem listTools_fallback_amended_witness :
    listTools (fun _ => none) (mkClient "") (.thrown "a") (.thrown "b")
      = { state := mkClient "", result := .ok (.jarr getKnownTools), networkCalls := 0 } ∧
    (listTools (fun _ => none) connectedClient (.thrown "a") (.thrown "b")).result
      = .ok (.jarr getKnownTools) ∧
    (listTools (fun _ => none) connectedClient (.thrown "a") (.success sseResponse)).result
      = .ok (.jarr getKnownTools) :=
  ⟨(listTools_fallback_amended (fun _ => none) (mkClient "") (.thrown "a") (.thrown "b")).1 rfl,
    (listTools_fallback_amended (fun _ => none) connectedClient
      (.thrown "a") (.thrown "b")).2.2.1 "b" rfl rfl rfl,
    (listTools_fallback_amended (fun _ => none) connectedClient
      (.thrown "a") (.success sseResponse)).2.2.2.2.2.1 sseResponse rfl rfl rfl rfl rfl⟩

/-- C3 amended: for event-stream responses, callTool() correlates strictly
by the request id it assigned: any returned result comes from the envelope
parseSSEResponse selected, which necessarily carries that id, and when the
stream contains no envelope with that id the call fails with the terminal
no-matching-response error instead of being treated as successful.  (The
counterexample shows the single-JSON response path returns the result
without any id check, which is what forces the restriction to streams.) -/
theorem callTool_sse_id_correlation (parse : String → Option Json) (st : MCPState)
    (connectNet : FetchOutcome) (r : HttpResponse) (rid : Int)
    (hok : r.ok = true) (hct : contentTypeIsEventStream r.contentType = true)
    (hid : (callTool parse st connectNet (.success r)).assignedId = some rid) :
    (∀ v, (callTool parse st connectNet (.success r)).result = .ok v →
      ∃ d, parseSSEResponse parse r.bodyText rid = some d ∧
        jsonIdEq (d.get "id") rid = true ∧ v = d.get "result") ∧
    (parseSSEResponse parse r.bodyText rid = none →
      (callTool parse st connectNet (.success r)).result
        = .error "No valid response found in SSE stream") := by
  by_cases hcv : st.configValid = true
  · cases hin : st.initialized with
    | true =>
      have heq := (callTool_eq_send parse st connectNet (.success r) hcv).1 hin
      rw [heq] at hid ⊢
      have hrid : rid = st.requestId := by
        rw [callToolSend_assignedId] at hid
        cases hid
        rfl
      rw [hrid]
      exact callToolSend_sse parse st r 0 hok hct
    | false =>
      rcases hce : (connect parse st connectNet).error with _ | e
      · have heq := (callTool_eq_send parse st connectNet (.success r) hcv).2.1 hin hce
        rw [heq] at hid ⊢
        have hrid : rid = (connect parse st connectNet).state.requestId := by
          rw [callToolSend_assignedId] at hid
          cases hid
          rfl
        rw [hrid]
        exact callToolSend_sse parse (connect parse st connectNet).state r
          (connect parse st connectNet).networkCalls hok hct
      · have heq := (callTool_eq_send parse st connectNet (.success r) hcv).2.2 e hin hce
        rw [heq] at hid
        cases hid
  · rw [callTool] at hid
    simp only [Bool.not_eq_true] at hcv
    simp only [hcv] at hid
    cases hid

/-- Witness for C3 amended: on a stream whose envelopes carry ids 7 and 2
only, a call that assigned id 2 with no matching envelope... the no-match
stream yields the terminal error. -/
theorem callTool_sse_id_correlation_witness :
    (callTool sseParse connectedClient (.thrown "unused") (.success sseNoMatchResponse)).result
      = .error "No valid response found in SSE stream" :=
  (callTool_sse_id_correlation sseParse connectedClient (.thrown "unused")
    sseNoMatchResponse 2 rfl rfl rfl).2 rfl

end EthNyc
